import Mathlib

/-!
Verification development for the tube-crawler repository.

The embedding translates the main-process services:
* `DatabaseService` (src/unnamed/part_001, first document): a SQLite-backed
  record store for `Video` rows, guarded by a `db`-initialized check on every
  operation.  SQLite specifics that matter to the claims are modelled
  explicitly: the `video_id UNIQUE` constraint, the default column values
  `download_status = 'pending'` / `download_progress = 0`, the
  `updated_at` refresh trigger, `ORDER BY created_at DESC` (the row list is
  kept newest-first, which is that order given strictly increasing insert
  timestamps), and `LIKE '%q%'` matching with SQLite's ASCII
  case-insensitivity and its `%` / `_` metacharacters.
* `DownloadService` (src/unnamed/part_002): the active-download map, the
  progress de-duplication loop over arriving chunks, the error path of
  `downloadVideo`, and `cancelDownload` with its abort listener.
* the IPC handlers `video:add` and `video:searchYouTube`
  (src/unnamed/part_003).

Mutating operations take the current state and return it next to an
`Except`-classified result, so frame conditions (what a call leaves
untouched) are provable statements rather than conventions.
-/

namespace TubeCrawler

/-- ASCII lower-casing; SQLite's default `LIKE` is case-insensitive exactly for
the ASCII range, which is the folding modelled here. -/
def lcase (c : Char) : Char :=
  if 'A' ≤ c ∧ c ≤ 'Z' then Char.ofNat (c.toNat + 32) else c

/-- Download lifecycle states, the closed enumeration stored in the
`download_status` column. -/
inductive DownloadStatus
  | pending
  | downloading
  | completed
  | failed
deriving DecidableEq, Repr

/-- A row of the `videos` table, fields as in the `Video` interface of
src/unnamed/part_001 (camelCase projection of the snake_case columns).
Timestamps are modelled as natural numbers. -/
structure Video where
  id : Nat
  videoId : String
  url : String
  title : String
  description : Option String
  thumbnailUrl : String
  duration : Nat
  channelName : String
  uploadDate : Option String
  filePath : Option String
  fileSize : Option Nat
  downloadStatus : DownloadStatus
  downloadProgress : Nat
  createdAt : Nat
  updatedAt : Nat
deriving DecidableEq, Repr

/-- The open database: the row list is kept newest-first (the view produced by
`ORDER BY created_at DESC`, given that each insert gets a strictly larger
`created_at` than all existing rows), plus the AUTOINCREMENT counter. -/
structure DbState where
  rows : List Video
  nextId : Nat
deriving DecidableEq, Repr

/-- Errors raised by the store: the `Database not initialized` guard present in
every method, and a SQLite `UNIQUE` constraint violation. -/
inductive DbError
  | notInitialized
  | uniqueViolation
deriving DecidableEq, Repr

/-- The `DatabaseService` singleton state: `db` is `none` before
`initialize()` and `some` afterwards. -/
structure DatabaseService where
  db : Option DbState
deriving DecidableEq, Repr

/-- Metadata argument of `DatabaseService.addVideo`. -/
structure VideoMeta where
  videoId : String
  url : String
  title : String
  thumbnailUrl : String
  duration : Nat
  channelName : String
  description : Option String
  uploadDate : Option String
deriving DecidableEq, Repr

/-- `addVideo` (part_001 lines 132-163): inserts a row; the `video_id UNIQUE`
constraint rejects a duplicate platform ID; the column defaults give
`download_status = 'pending'`, `download_progress = 0`; `created_at` and
`updated_at` are set to the insert time; the new row is read back and
returned. -/
def addVideo (svc : DatabaseService) (meta : VideoMeta) (now : Nat) :
    Except DbError Video × DatabaseService :=
  match svc.db with
  | none => (.error .notInitialized, svc)
  | some st =>
    if st.rows.any (fun r => r.videoId == meta.videoId) then
      (.error .uniqueViolation, svc)
    else
      let v : Video :=
        { id := st.nextId
          videoId := meta.videoId
          url := meta.url
          title := meta.title
          description := meta.description
          thumbnailUrl := meta.thumbnailUrl
          duration := meta.duration
          channelName := meta.channelName
          uploadDate := meta.uploadDate
          filePath := none
          fileSize := none
          downloadStatus := .pending
          downloadProgress := 0
          createdAt := now
          updatedAt := now }
      (.ok v, ⟨some ⟨v :: st.rows, st.nextId + 1⟩⟩)

/-- `getVideoById` (part_001 lines 165-171): `SELECT * FROM videos WHERE id = ?`. -/
def getVideoById (svc : DatabaseService) (id : Nat) :
    Except DbError (Option Video) × DatabaseService :=
  match svc.db with
  | none => (.error .notInitialized, svc)
  | some st => (.ok (st.rows.find? (fun r => r.id == id)), svc)

/-- `getVideoByVideoId` (part_001 lines 173-179):
`SELECT * FROM videos WHERE video_id = ?`. -/
def getVideoByVideoId (svc : DatabaseService) (videoId : String) :
    Except DbError (Option Video) × DatabaseService :=
  match svc.db with
  | none => (.error .notInitialized, svc)
  | some st => (.ok (st.rows.find? (fun r => r.videoId == videoId)), svc)

/-- `getAllVideos` (part_001 lines 181-187):
`SELECT * FROM videos ORDER BY created_at DESC`; the row list already is that
order. -/
def getAllVideos (svc : DatabaseService) :
    Except DbError (List Video) × DatabaseService :=
  match svc.db with
  | none => (.error .notInitialized, svc)
  | some st => (.ok st.rows, svc)

/-- One step of SQLite `LIKE`'s `%` wildcard: does `f` accept some suffix of
the text (including the full text and the empty suffix)? -/
def suffixAny (f : List Char → Bool) : List Char → Bool
  | [] => f []
  | c :: ts => f (c :: ts) || suffixAny f ts

/-- SQLite `LIKE` pattern matching (default settings, no ESCAPE): `%` matches
any sequence of characters, `_` any single character, and other characters
match ASCII case-insensitively. -/
def likeMatch : List Char → List Char → Bool
  | [], t => t.isEmpty
  | q :: ps, t =>
    if q = '%' then suffixAny (likeMatch ps) t
    else
      match t with
      | [] => false
      | c :: ts =>
        if q = '_' then likeMatch ps ts
        else (lcase q == lcase c) && likeMatch ps ts

/-- The pattern `'%' + query + '%'` built by `searchVideos`
(part_001 line 197). -/
def likePattern (q : String) : List Char :=
  '%' :: (q.data ++ ['%'])

/-- `searchVideos` (part_001 lines 189-200):
`SELECT * FROM videos WHERE title LIKE ? OR channel_name LIKE ?
ORDER BY created_at DESC` with the `'%' + query + '%'` pattern. -/
def searchVideos (svc : DatabaseService) (q : String) :
    Except DbError (List Video) × DatabaseService :=
  match svc.db with
  | none => (.error .notInitialized, svc)
  | some st =>
    (.ok (st.rows.filter (fun r =>
        likeMatch (likePattern q) r.title.data ||
        likeMatch (likePattern q) r.channelName.data)), svc)

/-- Row update performed by `updateDownloadStatus` on a matching row; the
`update_videos_timestamp` trigger refreshes `updated_at`. -/
def setRowStatus (videoId : String) (status : DownloadStatus) (progress : Nat)
    (now : Nat) (r : Video) : Video :=
  if r.videoId == videoId then
    { r with downloadStatus := status, downloadProgress := progress, updatedAt := now }
  else r

/-- `updateDownloadStatus` (part_001 lines 202-215):
`UPDATE videos SET download_status = ?, download_progress = ? WHERE video_id = ?`. -/
def updateDownloadStatus (svc : DatabaseService) (videoId : String)
    (status : DownloadStatus) (progress : Nat) (now : Nat) :
    Except DbError Unit × DatabaseService :=
  match svc.db with
  | none => (.error .notInitialized, svc)
  | some st =>
    (.ok (), ⟨some { st with rows := st.rows.map (setRowStatus videoId status progress now) }⟩)

/-- Row update performed by `updateDownloadComplete` on a matching row. -/
def setRowComplete (videoId : String) (filePath : String) (fileSize : Nat)
    (now : Nat) (r : Video) : Video :=
  if r.videoId == videoId then
    { r with downloadStatus := .completed, downloadProgress := 100,
             filePath := some filePath, fileSize := some fileSize, updatedAt := now }
  else r

/-- `updateDownloadComplete` (part_001 lines 217-229): sets
`download_status = 'completed'`, `download_progress = 100`, file path and size
on the row with the given `video_id`. -/
def updateDownloadComplete (svc : DatabaseService) (videoId : String)
    (filePath : String) (fileSize : Nat) (now : Nat) :
    Except DbError Unit × DatabaseService :=
  match svc.db with
  | none => (.error .notInitialized, svc)
  | some st =>
    (.ok (), ⟨some { st with rows := st.rows.map (setRowComplete videoId filePath fileSize now) }⟩)

/-- `deleteVideo` (part_001 lines 231-236): `DELETE FROM videos WHERE id = ?`. -/
def deleteVideo (svc : DatabaseService) (id : Nat) :
    Except DbError Unit × DatabaseService :=
  match svc.db with
  | none => (.error .notInitialized, svc)
  | some st =>
    (.ok (), ⟨some { st with rows := st.rows.filter (fun r => !(r.id == id)) }⟩)

/-- `deleteVideoByVideoId` (part_001 lines 238-243):
`DELETE FROM videos WHERE video_id = ?`. -/
def deleteVideoByVideoId (svc : DatabaseService) (videoId : String) :
    Except DbError Unit × DatabaseService :=
  match svc.db with
  | none => (.error .notInitialized, svc)
  | some st =>
    (.ok (), ⟨some { st with rows := st.rows.filter (fun r => !(r.videoId == videoId)) }⟩)

/-! ## DownloadService (src/unnamed/part_002) -/

/-- JavaScript numbers as needed by the content-length computation: either a
value or `NaN` (the result of `parseInt` on an unparseable string). -/
inductive JSNum
  | nan
  | num (v : Int)
deriving DecidableEq, Repr

/-- JS `parseInt` on a base-10 digit string: the leading digit run, or `NaN`
when the string does not start with a digit (sign and whitespace handling is
omitted; content lengths are plain decimal strings). -/
def jsParseInt (s : String) : JSNum :=
  let ds := s.data.takeWhile Char.isDigit
  if ds.isEmpty then .nan
  else .num (Int.ofNat (ds.foldl (fun a c => a * 10 + (c.toNat - '0'.toNat)) 0))

/-- The `contentLength` computation of `downloadVideo` (part_002 lines 83-85):
`typeof format.content_length === 'string' ? parseInt(format.content_length)
: (format.content_length || 0)`; the field may be a string, a number, or
absent. -/
def resolveContentLength : Option (String ⊕ Int) → JSNum
  | some (.inl s) => jsParseInt s
  | some (.inr n) => .num n
  | none => .num 0

/-- The `contentLength > 0` guard (part_002 line 123); false on `NaN`. -/
def jsPos : JSNum → Bool
  | .nan => false
  | .num v => decide (0 < v)

/-- Numeric value of a `JSNum` used as the positive divisor. -/
def jsToNat : JSNum → Nat
  | .nan => 0
  | .num v => v.toNat

/-- State of the progress tracking in `downloadVideo` (part_002 lines
117-118): bytes received, the last integer percentage that was emitted, and
the trace of emissions.  Each element of `events` is one percentage at which
the loop both wrote `('downloading', progress)` to the store and invoked
`onProgress` (lines 127-130). -/
structure ProgState where
  downloaded : Nat
  lastProgress : Nat
  events : List Nat
deriving DecidableEq, Repr

/-- The `'data'` listener (part_002 lines 120-133): add the chunk length, and
when the expected total is positive, emit
`floor(downloaded / contentLength * 100)` exactly when it differs from the
previously emitted value.  The floating-point expression
`Math.floor((downloaded / contentLength) * 100)` is modelled by exact natural
division `downloaded * 100 / contentLength`. -/
def onData (contentLength : JSNum) (st : ProgState) (chunk : Nat) : ProgState :=
  let downloaded := st.downloaded + chunk
  if jsPos contentLength then
    let progress := downloaded * 100 / jsToNat contentLength
    if progress ≠ st.lastProgress then
      { downloaded := downloaded, lastProgress := progress,
        events := st.events ++ [progress] }
    else
      { st with downloaded := downloaded }
  else
    { st with downloaded := downloaded }

/-- A whole simulated transfer: fold the data listener over the arriving chunk
sizes, starting from `downloaded = 0`, `lastProgress = 0`, no emissions. -/
def runTransfer (contentLength : JSNum) (chunks : List Nat) : ProgState :=
  chunks.foldl (onData contentLength) ⟨0, 0, []⟩

/-- In-memory state of the `DownloadService`: the key set of the
`activeDownloads` map (video ID to `AbortController`). -/
structure DownloadServiceState where
  activeDownloads : List String
deriving DecidableEq, Repr

/-- Combined state the download service operates on: the database service, the
active-download map, and the set of paths present on disk. -/
structure World where
  dbSvc : DatabaseService
  dlSvc : DownloadServiceState
  files : List String
deriving DecidableEq, Repr

/-- The deterministic output path `path.join(downloadsPath, videoId + '.mp4')`
(part_002 line 63). -/
def outputPath (videoId : String) : String :=
  "downloads/" ++ videoId ++ ".mp4"

/-- Errors of `downloadVideo`: the duplicate-start rejection, a propagated
store error, and a transfer failure carrying the underlying cause. -/
inductive DlError
  | alreadyInProgress
  | db (e : DbError)
  | transferFailed (msg : String)
deriving DecidableEq, Repr

/-- The start phase of `downloadVideo` (part_002 lines 48-65): reject when the
ID is already in `activeDownloads` (line 56, before any store write),
otherwise write `('downloading', 0)` to the store (line 61) and register the
transfer (line 65). -/
def downloadVideoStart (w : World) (videoId : String) (now : Nat) :
    Except DlError Unit × World :=
  if videoId ∈ w.dlSvc.activeDownloads then
    (.error .alreadyInProgress, w)
  else
    match updateDownloadStatus w.dbSvc videoId .downloading 0 now with
    | (.error e, svc') => (.error (.db e), { w with dbSvc := svc' })
    | (.ok _, svc') =>
      (.ok (), { w with dbSvc := svc',
                        dlSvc := ⟨videoId :: w.dlSvc.activeDownloads⟩ })

/-- The error path of `downloadVideo` (part_002 lines 168-187, identical in
the catch block and the stream error handlers): remove the ID from
`activeDownloads`, write `('failed', 0)` to the store, and fail with the
original error. -/
def downloadVideoOnError (w : World) (videoId : String) (now : Nat)
    (msg : String) : DlError × World :=
  let active := w.dlSvc.activeDownloads.filter (fun i => !(i == videoId))
  match updateDownloadStatus w.dbSvc videoId .failed 0 now with
  | (.error e, svc') => (.db e, { w with dbSvc := svc', dlSvc := ⟨active⟩ })
  | (.ok _, svc') => (.transferFailed msg, { w with dbSvc := svc', dlSvc := ⟨active⟩ })

/-- `cancelDownload` (part_002 lines 193-203): when the ID has an active
entry, `abort()` runs the abort listener synchronously (lines 136-143:
destroy the streams and unlink the partial file if it exists), then the entry
is removed, `('pending', 0)` is written to the store, and `true` is returned;
otherwise `false` is returned with nothing touched. -/
def cancelDownload (w : World) (videoId : String) (now : Nat) :
    Except DbError Bool × World :=
  if videoId ∈ w.dlSvc.activeDownloads then
    let files := w.files.filter (fun p => !(p == outputPath videoId))
    let active := w.dlSvc.activeDownloads.filter (fun i => !(i == videoId))
    match updateDownloadStatus w.dbSvc videoId .pending 0 now with
    | (.error e, svc') => (.error e, { dbSvc := svc', dlSvc := ⟨active⟩, files := files })
    | (.ok _, svc') => (.ok true, { dbSvc := svc', dlSvc := ⟨active⟩, files := files })
  else
    (.ok false, w)

/-! ## IPC handlers (src/unnamed/part_003) -/

/-- Errors surfaced by the `video:add` handler (caught and returned as
`success: false` with the message). -/
inductive AddError
  | alreadyAdded
  | store (e : DbError)
deriving DecidableEq, Repr

/-- The duplicate-check-then-insert core of the `video:add` handler
(part_003 lines 122-146): look the platform ID up first, fail with
`'Video already added'` when a row exists, otherwise insert via
`DatabaseService.addVideo`. -/
def videoAddHandler (svc : DatabaseService) (meta : VideoMeta) (now : Nat) :
    Except AddError (Video × DatabaseService) :=
  match getVideoByVideoId svc meta.videoId with
  | (.error e, _) => .error (.store e)
  | (.ok (some _), _) => .error .alreadyAdded
  | (.ok none, _) =>
    match addVideo svc meta now with
    | (.error e, _) => .error (.store e)
    | (.ok v, svc') => .ok (v, svc')

/-- A search result as returned by the platform library (the fields the
`video:searchYouTube` handler reads, part_003 lines 240-249). -/
structure PlatformVideo where
  id : String
  titleText : Option String
  thumbnailUrl : Option String
  durationSeconds : Option Nat
  authorName : Option String
  viewCountText : Option String
  publishedText : Option String
deriving DecidableEq, Repr

/-- The ephemeral projection built per result (part_003 lines 240-249),
with the handler's fallback defaults. -/
structure SearchResultItem where
  id : String
  url : String
  title : String
  thumbnail : String
  duration : Nat
  channel : String
  viewCount : String
  publishedDate : String
deriving DecidableEq, Repr

/-- Projection of one platform result into the response shape. -/
def toSearchResult (v : PlatformVideo) : SearchResultItem :=
  { id := v.id
    url := "https://www.youtube.com/watch?v=" ++ v.id
    title := v.titleText.getD "Untitled"
    thumbnail := v.thumbnailUrl.getD ""
    duration := v.durationSeconds.getD 0
    channel := v.authorName.getD "Unknown"
    viewCount := v.viewCountText.getD ""
    publishedDate := v.publishedText.getD "" }

/-- The `video:searchYouTube` handler core (part_003 lines 239-249):
`searchResults.videos?.slice(0, 10).map(...) || []`.  The database service is
threaded through unchanged: the handler never touches it. -/
def searchYouTubeHandler (results : Option (List PlatformVideo))
    (svc : DatabaseService) : List SearchResultItem × DatabaseService :=
  (((results.getD []).take 10).map toSearchResult, svc)

/-! ## Spec-side definitions for the search refinement -/

/-- Case-insensitive prefix test (ASCII folding). -/
def ciPrefixOf : List Char → List Char → Bool
  | [], _ => true
  | _ :: _, [] => false
  | q :: qs, c :: ts => (lcase q == lcase c) && ciPrefixOf qs ts

/-- Case-insensitive substring containment: some suffix of the text starts
with the query, up to ASCII case. -/
def ciSubstring (q t : List Char) : Bool :=
  suffixAny (ciPrefixOf q) t

/-- True when the query contains no SQL `LIKE` metacharacter. -/
def noWild (q : List Char) : Bool :=
  q.all (fun c => !(c == '%') && !(c == '_'))

/-- Modelled from the spec: `search(text)` returns the records whose title or
channel name contains the text as a case-insensitive substring, in the stored
(newest-first) order. -/
def searchSpec (q : String) (rows : List Video) : List Video :=
  rows.filter (fun r =>
    ciSubstring q.data r.title.data || ciSubstring q.data r.channelName.data)

/-- Rows of the store inside a world (empty when uninitialized). -/
def worldRows (w : World) : List Video :=
  match w.dbSvc.db with
  | none => []
  | some st => st.rows

/-- Number of stored rows carrying the given platform video ID. -/
def rowCountFor (svc : DatabaseService) (videoId : String) : Nat :=
  match svc.db with
  | none => 0
  | some st => (st.rows.filter (fun r => r.videoId == videoId)).length

/-! ## Sample values used by witnesses -/

/-- A database service that has not been initialized. -/
def svcNone : DatabaseService := ⟨none⟩

/-- A concrete metadata sample. -/
def metaSample : VideoMeta :=
  { videoId := "vid1", url := "https://example/v1", title := "First Video"
    thumbnailUrl := "thumb1", duration := 10, channelName := "Chan"
    description := none, uploadDate := none }

/-- A concrete stored row. -/
def rowSample : Video :=
  { id := 1, videoId := "vid1", url := "https://example/v1"
    title := "First Video", description := none, thumbnailUrl := "thumb1"
    duration := 10, channelName := "Chan", uploadDate := none
    filePath := none, fileSize := none, downloadStatus := .pending
    downloadProgress := 0, createdAt := 0, updatedAt := 0 }

/-- An initialized service holding exactly `rowSample`. -/
def svcOne : DatabaseService := ⟨some ⟨[rowSample], 2⟩⟩

/-- Invariant of the progress loop: the emission trace is strictly
increasing, its last element (if any) is the remembered `lastProgress`, and
`lastProgress` never exceeds the current percentage. -/
def ProgInv (cl : JSNum) (st : ProgState) : Prop :=
  st.events.Chain' (· < ·) ∧
  (∀ x ∈ st.events.getLast?, x = st.lastProgress) ∧
  (jsPos cl = true → st.lastProgress ≤ st.downloaded * 100 / jsToNat cl)

/-- A row whose title is `"x"` and channel name `"y"`. -/
def rowXY : Video :=
  { id := 1, videoId := "vidx", url := "u", title := "x"
    description := none, thumbnailUrl := "t", duration := 0
    channelName := "y", uploadDate := none, filePath := none
    fileSize := none, downloadStatus := .pending, downloadProgress := 0
    createdAt := 0, updatedAt := 0 }

/-- Database holding exactly `rowXY`. -/
def svcRowXY : DatabaseService := ⟨some ⟨[rowXY], 2⟩⟩

/-! ## Theorems -/

/-- C7: every Record Store operation invoked before the store has been
initialized (`db = none`) fails with the store-unavailable error and returns
the service unchanged. -/
theorem db_ops_require_init (svc : DatabaseService) (h : svc.db = none)
    (meta : VideoMeta) (id : Nat) (videoId q fp : String)
    (status : DownloadStatus) (progress fs now : Nat) :
    addVideo svc meta now = (.error .notInitialized, svc) ∧
    getVideoById svc id = (.error .notInitialized, svc) ∧
    getVideoByVideoId svc videoId = (.error .notInitialized, svc) ∧
    getAllVideos svc = (.error .notInitialized, svc) ∧
    searchVideos svc q = (.error .notInitialized, svc) ∧
    updateDownloadStatus svc videoId status progress now = (.error .notInitialized, svc) ∧
    updateDownloadComplete svc videoId fp fs now = (.error .notInitialized, svc) ∧
    deleteVideo svc id = (.error .notInitialized, svc) ∧
    deleteVideoByVideoId svc videoId = (.error .notInitialized, svc) := by
  refine ⟨?_, ?_, ?_, ?_, ?_, ?_, ?_, ?_, ?_⟩ <;>
    simp [addVideo, getVideoById, getVideoByVideoId, getAllVideos, searchVideos,
      updateDownloadStatus, updateDownloadComplete, deleteVideo,
      deleteVideoByVideoId, h]

/-- Witness for C7 at the uninitialized service and concrete arguments. -/
theorem db_ops_require_init_witness :
    svcNone.db = none ∧
    (addVideo svcNone metaSample 0 = (.error .notInitialized, svcNone) ∧
     getVideoById svcNone 1 = (.error .notInitialized, svcNone) ∧
     getVideoByVideoId svcNone "vid1" = (.error .notInitialized, svcNone) ∧
     getAllVideos svcNone = (.error .notInitialized, svcNone) ∧
     searchVideos svcNone "q" = (.error .notInitialized, svcNone) ∧
     updateDownloadStatus svcNone "vid1" .pending 0 0 = (.error .notInitialized, svcNone) ∧
     updateDownloadComplete svcNone "vid1" "fp" 5 0 = (.error .notInitialized, svcNone) ∧
     deleteVideo svcNone 1 = (.error .notInitialized, svcNone) ∧
     deleteVideoByVideoId svcNone "vid1" = (.error .notInitialized, svcNone)) :=
  ⟨rfl, db_ops_require_init svcNone rfl metaSample 1 "vid1" "q" "fp" .pending 0 5 0⟩

/-- C10: `updateDownloadStatus`, `updateDownloadComplete` and
`deleteVideoByVideoId` on an initialized store whose rows all carry a
different platform ID return normally and leave the service (hence every
row) unchanged: the store raises no not-found error for these mutations. -/
theorem db_mutations_missing_id_noop (svc : DatabaseService) (st : DbState)
    (videoId fp : String) (status : DownloadStatus) (progress fs now : Nat)
    (hdb : svc.db = some st)
    (hmiss : st.rows.all (fun r => !(r.videoId == videoId)) = true) :
    updateDownloadStatus svc videoId status progress now = (.ok (), svc) ∧
    updateDownloadComplete svc videoId fp fs now = (.ok (), svc) ∧
    deleteVideoByVideoId svc videoId = (.ok (), svc) := by
  obtain ⟨db⟩ := svc
  simp only [DatabaseService.mk.injEq] at hdb
  subst hdb
  have hne : ∀ r ∈ st.rows, (r.videoId == videoId) = false := by
    intro r hr
    have := List.all_eq_true.mp hmiss r hr
    simpa using this
  have hmap1 : st.rows.map (setRowStatus videoId status progress now) = st.rows := by
    have h : st.rows.map (setRowStatus videoId status progress now) = st.rows.map id :=
      List.map_congr_left (fun r hr => by simp [setRowStatus, hne r hr])
    simpa using h
  have hmap2 : st.rows.map (setRowComplete videoId fp fs now) = st.rows := by
    have h : st.rows.map (setRowComplete videoId fp fs now) = st.rows.map id :=
      List.map_congr_left (fun r hr => by simp [setRowComplete, hne r hr])
    simpa using h
  have hfil : st.rows.filter (fun r => !(r.videoId == videoId)) = st.rows := by
    rw [List.filter_eq_self]
    intro r hr
    simp [hne r hr]
  refine ⟨?_, ?_, ?_⟩ <;>
    simp [updateDownloadStatus, updateDownloadComplete, deleteVideoByVideoId,
      hmap1, hmap2, hfil]

/-- Witness for C10: mutations aimed at the absent ID `"ghost"` on a store
holding only `rowSample` are accepted no-ops. -/
theorem db_mutations_missing_id_noop_witness :
    svcOne.db = some ⟨[rowSample], 2⟩ ∧
    ([rowSample].all (fun r => !(r.videoId == "ghost"))) = true ∧
    (updateDownloadStatus svcOne "ghost" .failed 7 9 = (.ok (), svcOne) ∧
     updateDownloadComplete svcOne "ghost" "fp" 5 9 = (.ok (), svcOne) ∧
     deleteVideoByVideoId svcOne "ghost" = (.ok (), svcOne)) :=
  ⟨rfl, by decide,
   db_mutations_missing_id_noop svcOne ⟨[rowSample], 2⟩ "ghost" "fp" .failed 7 5 9
     rfl (by decide)⟩

/-- C8: the remote search handler returns at most ten results, their platform
IDs are exactly the first (at most ten) platform results in the platform's
order, and the record store is returned unchanged. -/
theorem remote_search_capped_ordered_ephemeral
    (results : Option (List PlatformVideo)) (svc : DatabaseService) :
    (searchYouTubeHandler results svc).1.length ≤ 10 ∧
    (searchYouTubeHandler results svc).1.map SearchResultItem.id =
      ((results.getD []).map PlatformVideo.id).take 10 ∧
    (searchYouTubeHandler results svc).2 = svc := by
  refine ⟨?_, ?_, rfl⟩
  · simp [searchYouTubeHandler]
  · simp only [searchYouTubeHandler, List.map_take, List.map_map]
    have hcomp : SearchResultItem.id ∘ toSearchResult = PlatformVideo.id :=
      funext (fun v => rfl)
    rw [hcomp]

/-- C5: starting a download for an ID that is already in `activeDownloads`
fails with the already-in-progress error and returns the world unchanged: no
store write happens, and neither the store row nor the first transfer's
in-memory entry is altered. -/
theorem second_start_rejected (w : World) (videoId : String) (now : Nat)
    (h : videoId ∈ w.dlSvc.activeDownloads) :
    downloadVideoStart w videoId now = (.error .alreadyInProgress, w) := by
  simp [downloadVideoStart, h]

/-- Witness for C5 at a world with an active transfer for `"vid1"`. -/
theorem second_start_rejected_witness :
    "vid1" ∈ (World.mk svcOne ⟨["vid1"]⟩ []).dlSvc.activeDownloads ∧
    downloadVideoStart (World.mk svcOne ⟨["vid1"]⟩ []) "vid1" 3 =
      (.error .alreadyInProgress, World.mk svcOne ⟨["vid1"]⟩ []) :=
  ⟨by decide, second_start_rejected (World.mk svcOne ⟨["vid1"]⟩ []) "vid1" 3 (by decide)⟩

/-- Folding the data listener cannot emit when the positivity guard is false. -/
theorem foldl_onData_events_of_not_pos (cl : JSNum) (h : jsPos cl = false) :
    ∀ (chunks : List Nat) (st : ProgState),
      (chunks.foldl (onData cl) st).events = st.events := by
  intro chunks
  induction chunks with
  | nil => intro st; rfl
  | cons c cs ih =>
    intro st
    rw [List.foldl_cons, ih]
    simp [onData, h]

/-- C9: when the resolved content length is not a positive number (absent,
zero, or an unparseable string giving `NaN`), the streaming loop performs no
emission at all: `onProgress` is never invoked and no intermediate progress
percentage is written to the store. -/
theorem no_progress_without_positive_length (raw : Option (String ⊕ Int))
    (chunks : List Nat) (h : jsPos (resolveContentLength raw) = false) :
    (runTransfer (resolveContentLength raw) chunks).events = [] := by
  unfold runTransfer
  rw [foldl_onData_events_of_not_pos (resolveContentLength raw) h]

/-- One data chunk preserves the progress-loop invariant. -/
theorem onData_preserves_inv (cl : JSNum) (st : ProgState) (chunk : Nat)
    (h : ProgInv cl st) : ProgInv cl (onData cl st chunk) := by
  obtain ⟨hchain, hlast, hle⟩ := h
  by_cases hpos : jsPos cl = true
  · have hmono : st.downloaded * 100 / jsToNat cl ≤
        (st.downloaded + chunk) * 100 / jsToNat cl :=
      Nat.div_le_div_right (Nat.mul_le_mul_right 100 (Nat.le_add_right _ _))
    by_cases hne : (st.downloaded + chunk) * 100 / jsToNat cl ≠ st.lastProgress
    · have hstep : onData cl st chunk =
          { downloaded := st.downloaded + chunk,
            lastProgress := (st.downloaded + chunk) * 100 / jsToNat cl,
            events := st.events ++ [(st.downloaded + chunk) * 100 / jsToNat cl] } := by
        simp [onData, hpos, hne]
      rw [hstep]
      have hlt : st.lastProgress < (st.downloaded + chunk) * 100 / jsToNat cl :=
        lt_of_le_of_ne (le_trans (hle hpos) hmono) (Ne.symm hne)
      refine ⟨?_, ?_, ?_⟩
      · rw [List.chain'_append]
        refine ⟨hchain, List.chain'_singleton _, ?_⟩
        intro x hx y hy
        simp only [List.head?_cons, Option.mem_def, Option.some.injEq] at hy
        subst hy
        have := hlast x hx
        subst this
        exact hlt
      · intro x hx
        rw [show st.events ++ [(st.downloaded + chunk) * 100 / jsToNat cl] =
              st.events ++ (st.downloaded + chunk) * 100 / jsToNat cl :: [] from rfl,
            List.getLast?_append_cons] at hx
        simp only [List.getLast?_singleton, Option.mem_def, Option.some.injEq] at hx
        exact hx.symm
      · intro _
        exact le_refl _
    · have hstep : onData cl st chunk =
          { st with downloaded := st.downloaded + chunk } := by
        simp [onData, hpos, hne]
      rw [hstep]
      push_neg at hne
      exact ⟨hchain, hlast, fun _ => le_of_eq hne.symm⟩
  · have hstep : onData cl st chunk =
        { st with downloaded := st.downloaded + chunk } := by
      simp only [Bool.not_eq_true] at hpos
      simp [onData, hpos]
    rw [hstep]
    exact ⟨hchain, hlast, fun hq => absurd hq hpos⟩

/-- The invariant holds after folding the data listener over any chunk list. -/
theorem foldl_onData_inv (cl : JSNum) (chunks : List Nat) :
    ∀ (st : ProgState), ProgInv cl st → ProgInv cl (chunks.foldl (onData cl) st) := by
  induction chunks with
  | nil => intro st h; exact h
  | cons c cs ih =>
    intro st h
    rw [List.foldl_cons]
    exact ih _ (onData_preserves_inv cl st c h)

/-- C1: over any transfer (in particular one whose byte counts arrive in
increasing steps) the emitted progress percentages — each of which is both
passed to `onProgress` and written to the Record Store — form a strictly
increasing sequence: non-decreasing and never repeating a value
consecutively, because a percentage is emitted only when
`floor(downloaded / contentLength * 100)` differs from the previously
emitted value. -/
theorem progress_events_strictly_increase (cl : JSNum) (chunks : List Nat) :
    (runTransfer cl chunks).events.Chain' (· < ·) := by
  have hinit : ProgInv cl ⟨0, 0, []⟩ := by
    refine ⟨List.chain'_nil, ?_, ?_⟩
    · intro x hx
      simp at hx
    · intro _
      simp
  exact (foldl_onData_inv cl chunks ⟨0, 0, []⟩ hinit).1

/-- Witness for C9 at the unparseable content length `"abc"`. -/
theorem no_progress_without_positive_length_witness :
    jsPos (resolveContentLength (some (.inl "abc"))) = false ∧
    (runTransfer (resolveContentLength (some (.inl "abc"))) [3, 5]).events = [] :=
  ⟨by decide, no_progress_without_positive_length (some (.inl "abc")) [3, 5] (by decide)⟩

/-- A trailing lone `%` pattern accepts every text. -/
theorem suffixAny_nil_pattern : ∀ t, suffixAny (likeMatch []) t = true := by
  intro t
  induction t with
  | nil => decide
  | cons c ts ih =>
    simp only [suffixAny]
    rw [ih]
    simp

/-- A wildcard-free pattern followed by `%` matches exactly the texts that
start (case-insensitively) with the pattern. -/
theorem likeMatch_trailing_pct : ∀ (q : List Char), noWild q = true →
    ∀ (t : List Char), likeMatch (q ++ ['%']) t = ciPrefixOf q t := by
  intro q
  induction q with
  | nil =>
    intro _ t
    have h1 : likeMatch ([] ++ ['%']) t = suffixAny (likeMatch []) t := rfl
    rw [h1, suffixAny_nil_pattern t]
    rfl
  | cons x xs ih =>
    intro hq t
    simp only [noWild, List.all_cons, Bool.and_eq_true, Bool.not_eq_true'] at hq
    have hxp : x ≠ '%' := by
      intro hx
      subst hx
      simp at hq
    have hxu : x ≠ '_' := by
      intro hx
      subst hx
      simp at hq
    have hxs : noWild xs = true := by
      simp [noWild, hq.2]
    cases t with
    | nil => simp [likeMatch, ciPrefixOf, hxp]
    | cons c ts => simp [likeMatch, ciPrefixOf, hxp, hxu, ih hxs ts]

/-- For a wildcard-free query, the `'%' + query + '%'` pattern built by
`searchVideos` matches exactly the texts containing the query as a
case-insensitive substring. -/
theorem likeMatch_pattern_eq_ciSubstring (q : List Char) (hq : noWild q = true)
    (t : List Char) :
    likeMatch ('%' :: (q ++ ['%'])) t = ciSubstring q t := by
  have hfun : likeMatch (q ++ ['%']) = ciPrefixOf q :=
    funext (likeMatch_trailing_pct q hq)
  have h1 : likeMatch ('%' :: (q ++ ['%'])) t = suffixAny (likeMatch (q ++ ['%'])) t := rfl
  rw [h1, hfun]
  rfl

/-- C4 counterexample: for the query `"_"` (a SQL LIKE metacharacter),
`searchVideos` returns the row titled `"x"` although neither its title nor
its channel name contains `"_"` as a (case-insensitive) substring — so the
claim does not hold for every query string. -/
theorem search_wildcard_counterexample :
    (searchVideos svcRowXY "_").1 = .ok [rowXY] ∧
    ciSubstring "_".data rowXY.title.data = false ∧
    ciSubstring "_".data rowXY.channelName.data = false ∧
    searchSpec "_" [rowXY] = [] :=
  ⟨rfl, by decide, by decide, by decide⟩

/-- C4 (amended): for every query containing no SQL LIKE metacharacter
(`%` or `_`), `searchVideos` on an initialized store returns exactly the
records whose title or channel name contains the query as a case-insensitive
(ASCII) substring, in the stored newest-first order (the result is a sublist
of the stored row list), and returns the service unchanged. -/
theorem search_matches_ci_substring (svc : DatabaseService) (st : DbState)
    (q : String) (hdb : svc.db = some st) (hq : noWild q.data = true) :
    searchVideos svc q = (.ok (searchSpec q st.rows), svc) ∧
    (searchSpec q st.rows).Sublist st.rows := by
  constructor
  · obtain ⟨db⟩ := svc
    simp only [DatabaseService.mk.injEq] at hdb
    subst hdb
    simp only [searchVideos, searchSpec, likePattern]
    have hfil : st.rows.filter (fun r =>
          likeMatch ('%' :: (q.data ++ ['%'])) r.title.data ||
          likeMatch ('%' :: (q.data ++ ['%'])) r.channelName.data) =
        st.rows.filter (fun r =>
          ciSubstring q.data r.title.data || ciSubstring q.data r.channelName.data) := by
      apply List.filter_congr
      intro r _
      rw [likeMatch_pattern_eq_ciSubstring q.data hq,
          likeMatch_pattern_eq_ciSubstring q.data hq]
    rw [hfil]
  · exact List.filter_sublist _

/-- Witness for the amended C4 at the store holding the `"x"`/`"y"` row and
the wildcard-free query `"X"` (matching the title case-insensitively). -/
theorem search_matches_ci_substring_witness :
    svcRowXY.db = some ⟨(svcRowXY.db.getD ⟨[], 0⟩).rows, 2⟩ ∧
    noWild "X".data = true ∧
    (searchVideos svcRowXY "X" =
       (.ok (searchSpec "X" (svcRowXY.db.getD ⟨[], 0⟩).rows), svcRowXY) ∧
     (searchSpec "X" (svcRowXY.db.getD ⟨[], 0⟩).rows).Sublist
       (svcRowXY.db.getD ⟨[], 0⟩).rows) :=
  ⟨rfl, by decide,
   search_matches_ci_substring svcRowXY ⟨(svcRowXY.db.getD ⟨[], 0⟩).rows, 2⟩ "X"
     rfl (by decide)⟩

/-- C3: adding a platform video ID not yet in the store inserts one row with
status `pending` and progress `0` and returns the full new record; a second
add for the same ID fails with the duplicate error (`'Video already added'`)
and — since the failing call returns no new state — the store afterwards
still contains exactly one row for that ID. -/
theorem add_video_duplicate_rejected (svc : DatabaseService) (st : DbState)
    (meta : VideoMeta) (now now2 : Nat) (hdb : svc.db = some st)
    (hfresh : st.rows.all (fun r => !(r.videoId == meta.videoId)) = true) :
    ∃ v svc',
      videoAddHandler svc meta now = .ok (v, svc') ∧
      v.videoId = meta.videoId ∧ v.url = meta.url ∧ v.title = meta.title ∧
      v.channelName = meta.channelName ∧ v.duration = meta.duration ∧
      v.thumbnailUrl = meta.thumbnailUrl ∧ v.description = meta.description ∧
      v.uploadDate = meta.uploadDate ∧ v.id = st.nextId ∧
      v.downloadStatus = .pending ∧ v.downloadProgress = 0 ∧
      v.createdAt = now ∧ v.updatedAt = now ∧
      rowCountFor svc' meta.videoId = 1 ∧
      videoAddHandler svc' meta now2 = .error .alreadyAdded := by
  obtain ⟨db⟩ := svc
  simp only [DatabaseService.mk.injEq] at hdb
  subst hdb
  have hne : ∀ r ∈ st.rows, (r.videoId == meta.videoId) = false := by
    intro r hr
    have := List.all_eq_true.mp hfresh r hr
    simpa using this
  have hfind : st.rows.find? (fun r => r.videoId == meta.videoId) = none := by
    rw [List.find?_eq_none]
    intro r hr
    simp [hne r hr]
  have hany : st.rows.any (fun r => r.videoId == meta.videoId) = false := by
    rw [List.any_eq_false]
    intro r hr
    simp [hne r hr]
  have hfilter : st.rows.filter (fun r => r.videoId == meta.videoId) = [] := by
    rw [List.filter_eq_nil_iff]
    intro r hr
    simp [hne r hr]
  set v : Video :=
    { id := st.nextId, videoId := meta.videoId, url := meta.url
      title := meta.title, description := meta.description
      thumbnailUrl := meta.thumbnailUrl, duration := meta.duration
      channelName := meta.channelName, uploadDate := meta.uploadDate
      filePath := none, fileSize := none, downloadStatus := .pending
      downloadProgress := 0, createdAt := now, updatedAt := now } with hv
  refine ⟨v, ⟨some ⟨v :: st.rows, st.nextId + 1⟩⟩, ?_, rfl, rfl, rfl, rfl, rfl, rfl,
      rfl, rfl, rfl, rfl, rfl, rfl, rfl, ?_, ?_⟩
  · simp [videoAddHandler, getVideoByVideoId, addVideo, hfind, hany, hv]
  · simp [rowCountFor, List.filter_cons, hfilter, hv]
  · simp [videoAddHandler, getVideoByVideoId, List.find?_cons, hv]

/-- Witness for C3: adding `metaSample` to an empty initialized store, then
adding it again. -/
theorem add_video_duplicate_rejected_witness :
    (DatabaseService.mk (some ⟨[], 1⟩)).db = some ⟨[], 1⟩ ∧
    (([] : List Video).all (fun r => !(r.videoId == metaSample.videoId))) = true ∧
    (∃ v svc',
      videoAddHandler ⟨some ⟨[], 1⟩⟩ metaSample 5 = .ok (v, svc') ∧
      v.videoId = metaSample.videoId ∧ v.url = metaSample.url ∧
      v.title = metaSample.title ∧ v.channelName = metaSample.channelName ∧
      v.duration = metaSample.duration ∧ v.thumbnailUrl = metaSample.thumbnailUrl ∧
      v.description = metaSample.description ∧ v.uploadDate = metaSample.uploadDate ∧
      v.id = 1 ∧ v.downloadStatus = .pending ∧ v.downloadProgress = 0 ∧
      v.createdAt = 5 ∧ v.updatedAt = 5 ∧
      rowCountFor svc' metaSample.videoId = 1 ∧
      videoAddHandler svc' metaSample 6 = .error .alreadyAdded) :=
  ⟨rfl, by decide,
   add_video_duplicate_rejected ⟨some ⟨[], 1⟩⟩ ⟨[], 1⟩ metaSample 5 6 rfl (by decide)⟩

/-- C2: when a transfer is active for the ID, `cancelDownload` returns
`true`, deletes the partially-written file, removes the active-transfer
entry, writes status `pending` / progress `0` to the row for that ID, and
touches no other row, file, or entry; when no transfer is active it returns
`false` with the whole world unchanged, raising no error. -/
theorem cancel_download_spec (w : World) (st : DbState) (videoId : String)
    (now : Nat) (hdb : w.dbSvc.db = some st) :
    (videoId ∈ w.dlSvc.activeDownloads →
      (cancelDownload w videoId now).1 = .ok true ∧
      outputPath videoId ∉ (cancelDownload w videoId now).2.files ∧
      videoId ∉ (cancelDownload w videoId now).2.dlSvc.activeDownloads ∧
      (∀ r ∈ worldRows (cancelDownload w videoId now).2,
         r.videoId = videoId →
           r.downloadStatus = .pending ∧ r.downloadProgress = 0) ∧
      (∀ r ∈ st.rows, r.videoId ≠ videoId →
         r ∈ worldRows (cancelDownload w videoId now).2) ∧
      (∀ p, p ≠ outputPath videoId →
         (p ∈ (cancelDownload w videoId now).2.files ↔ p ∈ w.files)) ∧
      (∀ i, i ≠ videoId →
         (i ∈ (cancelDownload w videoId now).2.dlSvc.activeDownloads ↔
          i ∈ w.dlSvc.activeDownloads))) ∧
    (videoId ∉ w.dlSvc.activeDownloads →
      cancelDownload w videoId now = (.ok false, w)) := by
  obtain ⟨⟨db⟩, ⟨active⟩, files⟩ := w
  simp only [DatabaseService.mk.injEq] at hdb
  subst hdb
  constructor
  · intro hmem
    have hstep : cancelDownload ⟨⟨some st⟩, ⟨active⟩, files⟩ videoId now =
        (.ok true,
         ⟨⟨some { st with rows := st.rows.map (setRowStatus videoId .pending 0 now) }⟩,
          ⟨active.filter (fun i => !(i == videoId))⟩,
          files.filter (fun p => !(p == outputPath videoId))⟩) := by
      simp [cancelDownload, hmem, updateDownloadStatus]
    rw [hstep]
    refine ⟨rfl, ?_, ?_, ?_, ?_, ?_, ?_⟩
    · intro hp
      simp only [List.mem_filter] at hp
      simp at hp
    · intro hi
      simp only [List.mem_filter] at hi
      simp at hi
    · intro r hr hrid
      simp only [worldRows, List.mem_map] at hr
      obtain ⟨r0, _, hr0⟩ := hr
      by_cases hmatch : (r0.videoId == videoId) = true
      · rw [← hr0]
        simp [setRowStatus, hmatch]
      · exfalso
        rw [← hr0] at hrid
        simp only [setRowStatus, hmatch] at hrid
        rw [Bool.not_eq_true] at hmatch
        have hne2 : r0.videoId ≠ videoId := by simpa using hmatch
        exact hne2 hrid
    · intro r hr hrid
      simp only [worldRows, List.mem_map]
      refine ⟨r, hr, ?_⟩
      simp [setRowStatus, hrid]
    · intro p hp
      simp [List.mem_filter, hp]
    · intro i hi
      simp [List.mem_filter, hi]
  · intro hmem
    simp [cancelDownload, hmem]

/-- Witness for C2 at a world with an active transfer whose partial file is
on disk and whose row is `downloading`. -/
theorem cancel_download_spec_witness :
    (World.mk ⟨some ⟨[rowSample], 2⟩⟩ ⟨["vid1"]⟩ [outputPath "vid1"]).dbSvc.db =
      some ⟨[rowSample], 2⟩ ∧
    ((cancelDownload (World.mk ⟨some ⟨[rowSample], 2⟩⟩ ⟨["vid1"]⟩
        [outputPath "vid1"]) "vid1" 7).1 = .ok true ∧
     outputPath "vid1" ∉ (cancelDownload (World.mk ⟨some ⟨[rowSample], 2⟩⟩
        ⟨["vid1"]⟩ [outputPath "vid1"]) "vid1" 7).2.files) :=
  ⟨rfl,
   ((cancel_download_spec (World.mk ⟨some ⟨[rowSample], 2⟩⟩ ⟨["vid1"]⟩
       [outputPath "vid1"]) ⟨[rowSample], 2⟩ "vid1" 7 rfl).1
     (by simp)).1,
   ((cancel_download_spec (World.mk ⟨some ⟨[rowSample], 2⟩⟩ ⟨["vid1"]⟩
       [outputPath "vid1"]) ⟨[rowSample], 2⟩ "vid1" 7 rfl).1
     (by simp)).2.1⟩

/-- C6: the error path of `downloadVideo` removes the in-memory
active-transfer entry for the failing ID, writes status `failed` /
progress `0` to that ID's row, fails with an error carrying the underlying
cause, and modifies no other ID's row, no other active entry, and no file. -/
theorem download_error_path_spec (w : World) (st : DbState)
    (videoId msg : String) (now : Nat) (hdb : w.dbSvc.db = some st) :
    (downloadVideoOnError w videoId now msg).1 = .transferFailed msg ∧
    videoId ∉ (downloadVideoOnError w videoId now msg).2.dlSvc.activeDownloads ∧
    (∀ i, i ≠ videoId →
       (i ∈ (downloadVideoOnError w videoId now msg).2.dlSvc.activeDownloads ↔
        i ∈ w.dlSvc.activeDownloads)) ∧
    (∀ r ∈ worldRows (downloadVideoOnError w videoId now msg).2,
       r.videoId = videoId →
         r.downloadStatus = .failed ∧ r.downloadProgress = 0) ∧
    (∀ r ∈ st.rows, r.videoId ≠ videoId →
       r ∈ worldRows (downloadVideoOnError w videoId now msg).2) ∧
    (downloadVideoOnError w videoId now msg).2.files = w.files := by
  obtain ⟨⟨db⟩, ⟨active⟩, files⟩ := w
  simp only [DatabaseService.mk.injEq] at hdb
  subst hdb
  have hstep : downloadVideoOnError ⟨⟨some st⟩, ⟨active⟩, files⟩ videoId now msg =
      (.transferFailed msg,
       ⟨⟨some { st with rows := st.rows.map (setRowStatus videoId .failed 0 now) }⟩,
        ⟨active.filter (fun i => !(i == videoId))⟩, files⟩) := by
    simp [downloadVideoOnError, updateDownloadStatus]
  rw [hstep]
  refine ⟨rfl, ?_, ?_, ?_, ?_, rfl⟩
  · intro hi
    simp only [List.mem_filter] at hi
    simp at hi
  · intro i hi
    simp [List.mem_filter, hi]
  · intro r hr hrid
    simp only [worldRows, List.mem_map] at hr
    obtain ⟨r0, _, hr0⟩ := hr
    by_cases hmatch : (r0.videoId == videoId) = true
    · rw [← hr0]
      simp [setRowStatus, hmatch]
    · exfalso
      rw [← hr0] at hrid
      simp only [setRowStatus, hmatch] at hrid
      rw [Bool.not_eq_true] at hmatch
      have hne2 : r0.videoId ≠ videoId := by simpa using hmatch
      exact hne2 hrid
  · intro r hr hrid
    simp only [worldRows, List.mem_map]
    refine ⟨r, hr, ?_⟩
    simp [setRowStatus, hrid]

/-- Witness for C6 at a world with one active transfer and one row. -/
theorem download_error_path_spec_witness :
    (World.mk ⟨some ⟨[rowSample], 2⟩⟩ ⟨["vid1"]⟩ []).dbSvc.db =
      some ⟨[rowSample], 2⟩ ∧
    ((downloadVideoOnError (World.mk ⟨some ⟨[rowSample], 2⟩⟩ ⟨["vid1"]⟩ [])
        "vid1" 7 "boom").1 = .transferFailed "boom" ∧
     "vid1" ∉ (downloadVideoOnError (World.mk ⟨some ⟨[rowSample], 2⟩⟩
        ⟨["vid1"]⟩ []) "vid1" 7 "boom").2.dlSvc.activeDownloads) :=
  ⟨rfl,
   (download_error_path_spec (World.mk ⟨some ⟨[rowSample], 2⟩⟩ ⟨["vid1"]⟩ [])
     ⟨[rowSample], 2⟩ "vid1" "boom" 7 rfl).1,
   (download_error_path_spec (World.mk ⟨some ⟨[rowSample], 2⟩⟩ ⟨["vid1"]⟩ [])
     ⟨[rowSample], 2⟩ "vid1" "boom" 7 rfl).2.1⟩

end TubeCrawler
